import Mathlib

/-!
Verification of the MEC Library tutorial filtering and display system
(`materials.js`): a shallow embedding of its filtering engine
(`filterTutorials`), its grouping/ordering phase (`shuffleWithinYears`),
its URL state codec (`updateURL` / `initializeFromURL`), its debounced
search handler (`handleSearch`), and the side-effect sequence of a
re-run, together with theorems about them.

JavaScript strings are modelled as `List Char`.  JavaScript's
`Math.random()` draws are modelled by an oracle function supplied as a
parameter, so all ordering theorems hold for every possible sequence of
draws.  Browser timers are modelled by a discrete-event simulator over
timestamped events.
-/

/-- JavaScript strings, modelled as lists of characters. -/
abbrev Str := List Char

/-- Model of `String.prototype.toLowerCase()`. -/
def jsToLower (s : Str) : Str := s.map Char.toLower

/-- Model of `String.prototype.trim()`: drop leading and trailing whitespace. -/
def jsTrim (s : Str) : Str :=
  ((s.dropWhile Char.isWhitespace).reverse.dropWhile Char.isWhitespace).reverse

/-- Model of `String.prototype.includes(needle)`: substring containment. -/
def jsIncludes (hay needle : Str) : Bool := decide (needle <:+: hay)

/-- Digits of a decimal numeral to a natural number. -/
def digitsToNat (ds : Str) : Nat := ds.foldl (fun n c => n * 10 + (c.toNat - 48)) 0

/-- JavaScript `ToNumber` on a string, restricted to the integral case:
whitespace is trimmed, the empty string denotes `0`, and an optional
sign followed by decimal digits denotes the corresponding integer.
Strings that JavaScript would read as `NaN` or as a non-integral or
non-decimal numeral yield `none` (such values are only ever compared
against integer `year` fields by the engine). -/
def jsStringToInt? (s : Str) : Option Int :=
  match jsTrim s with
  | [] => some 0
  | '-' :: ds => if ds ≠ [] ∧ ds.all Char.isDigit then some (-(digitsToNat ds : Int)) else none
  | '+' :: ds => if ds ≠ [] ∧ ds.all Char.isDigit then some ((digitsToNat ds : Int)) else none
  | ds => if ds.all Char.isDigit then some ((digitsToNat ds : Int)) else none

/-- The status tier of a tutorial.  `unset` models a JavaScript item
whose `status` field is absent or falsy; the source treats it exactly
like `"regular"`. -/
inductive Status where
  | regular
  | finalist
  | winner
  | unset
deriving DecidableEq, Repr

/-- A catalog item, as loaded from `tutorials.json`. -/
structure Tutorial where
  title : Str
  authors : List Str
  year : Int
  status : Status
  keywords : List Str
  thumbnail : Option Str
  url : Option Str
deriving DecidableEq, Repr

/-- The filter state: the values of the search input, the year select
and the topic select.  The empty string denotes an unset field. -/
structure FilterState where
  searchText : Str
  yearFilter : Str
  topicFilter : Str
deriving DecidableEq, Repr

/-- Model of `searchInput.value.toLowerCase().trim()` in `filterTutorials`. -/
def searchTermOf (s : FilterState) : Str := jsTrim (jsToLower s.searchText)

/-- The search sub-filter of `filterTutorials`: an empty (trimmed)
term matches everything, otherwise the term must occur in the
lower-cased title, some lower-cased author, or some lower-cased
keyword. -/
def matchesSearch (s : FilterState) (t : Tutorial) : Bool :=
  (searchTermOf s).isEmpty
    || jsIncludes (jsToLower t.title) (searchTermOf s)
    || t.authors.any (fun a => jsIncludes (jsToLower a) (searchTermOf s))
    || t.keywords.any (fun kw => jsIncludes (jsToLower kw) (searchTermOf s))

/-- The year sub-filter of `filterTutorials`: `!selectedYear ||
tutorial.year == selectedYear`, the loose equality coercing the select
value to a number. -/
def matchesYear (s : FilterState) (t : Tutorial) : Bool :=
  s.yearFilter.isEmpty || decide (jsStringToInt? s.yearFilter = some t.year)

/-- The topic sub-filter of `filterTutorials`: `!selectedTopic ||
tutorial.keywords.includes(selectedTopic)` (exact membership). -/
def matchesTopic (s : FilterState) (t : Tutorial) : Bool :=
  s.topicFilter.isEmpty || decide (s.topicFilter ∈ t.keywords)

/-- The conjunction of the three sub-filters (`matchesSearch &&
matchesYear && matchesTopic`). -/
def tutorialPred (s : FilterState) (t : Tutorial) : Bool :=
  matchesSearch s t && matchesYear s t && matchesTopic s t

/-- The predicate-filtering phase of `filterTutorials`:
`allTutorials.filter(...)`. -/
def filterMatches (s : FilterState) (ts : List Tutorial) : List Tutorial :=
  ts.filter (tutorialPred s)

/-- Swap the elements at positions `i` and `j` of a list
(`[regulars[i], regulars[j]] = [regulars[j], regulars[i]]`); out of
range indices leave the list unchanged. -/
def listSwap {α : Type} (l : List α) (i j : Nat) : List α :=
  match l[i]?, l[j]? with
  | some a, some b => (l.set i b).set j a
  | _, _ => l

/-- The Fisher–Yates loop of `shuffleWithinYears`, iterating the swap
for `i` down to `1`; `rand i` models the `Math.random()` draw at index
`i`, reduced mod `i + 1` exactly as `Math.floor(Math.random()*(i+1))`
yields a value in `[0, i]`. -/
def fyAux {α : Type} (rand : Nat → Nat) : List α → Nat → List α
  | l, 0 => l
  | l, i + 1 => fyAux rand (listSwap l (i + 1) (rand (i + 1) % (i + 2))) i

/-- The in-place Fisher–Yates shuffle of the regular tier, for a given
oracle of random draws. -/
def fisherYates {α : Type} (rand : Nat → Nat) (l : List α) : List α :=
  fyAux rand l (l.length - 1)

/-- Model of `t.status === 'winner'`. -/
def isWinner (t : Tutorial) : Bool := decide (t.status = Status.winner)

/-- Model of `t.status === 'finalist'`. -/
def isFinalist (t : Tutorial) : Bool := decide (t.status = Status.finalist)

/-- Model of `!t.status || t.status === 'regular'`. -/
def isRegularTier (t : Tutorial) : Bool :=
  decide (t.status = Status.unset ∨ t.status = Status.regular)

/-- The per-year-group ordering of `shuffleWithinYears`: winners first
(in input order), then finalists (in input order), then the shuffled
regulars. -/
def sortGroup (rand : Nat → Nat) (g : List Tutorial) : List Tutorial :=
  g.filter isWinner ++ g.filter isFinalist ++ fisherYates rand (g.filter isRegularTier)

/-- Model of `Object.keys(byYear).sort((a, b) => b - a)`: the distinct years of
the collection in numerically descending order. -/
def sortedYearsDesc (ts : List Tutorial) : List Int :=
  List.insertionSort (fun a b => a ≥ b) ((ts.map (fun t => t.year)).dedup)

/-- The group `byYear[y]` built by the `forEach` of `shuffleWithinYears`
(and of `renderTutorials`): the items of year `y`, in input order. -/
def yearGroup (ts : List Tutorial) (y : Int) : List Tutorial :=
  ts.filter (fun t => decide (t.year = y))

/-- Model of `shuffleWithinYears`: group by year, order each group by tier
(shuffling only the regular tier), and concatenate the groups in
descending year order.  `rand y` is the oracle of random draws used
for the group of year `y`. -/
def shuffleWithinYears (rand : Int → Nat → Nat) (ts : List Tutorial) : List Tutorial :=
  (sortedYearsDesc ts).flatMap (fun y => sortGroup (rand y) (yearGroup ts y))

/-- The pure computation of the Filter Engine's `apply` (the compute
phase of `filterTutorials`): predicate filtering followed by
`shuffleWithinYears`. -/
def applyEngine (rand : Int → Nat → Nat) (s : FilterState) (ts : List Tutorial) :
    List Tutorial :=
  shuffleWithinYears rand (filterMatches s ts)

/-- Model of `updateURL`: serialize the filter state to query parameters,
omitting empty fields, in the order `search`, `year`, `topic`. -/
def toQuery (s : FilterState) : List (Str × Str) :=
  (if s.searchText.isEmpty then [] else [("search".toList, s.searchText)]) ++
  (if s.yearFilter.isEmpty then [] else [("year".toList, s.yearFilter)]) ++
  (if s.topicFilter.isEmpty then [] else [("topic".toList, s.topicFilter)])

/-- Model of `URLSearchParams.get(k)`: the value of the first parameter named
`k`, if any. -/
def getParam (q : List (Str × Str)) (k : Str) : Option Str :=
  match q with
  | [] => none
  | p :: rest => if p.1 = k then some p.2 else getParam rest k

/-- Verbatim reading of the recognized query keys (the state part of
`initializeFromURL` with each parameter value taken as-is): the search
text input keeps any value; for the year and topic selects this
verbatim reading agrees with the page exactly on values the controls
can actually hold — the empty string or an existing option value,
which is the domain of the round-trip law.  `fromQueryDom` below
models the full select-assignment semantics. -/
def fromQuery (q : List (Str × Str)) : FilterState :=
  { searchText := (getParam q "search".toList).getD []
    yearFilter := (getParam q "year".toList).getD []
    topicFilter := (getParam q "topic".toList).getD [] }

/-- Decimal rendering of a count, as interpolated by the template
literals of `updateResultsCount`. -/
def natStr (n : Nat) : Str := (Nat.repr n).toList

/-- Decimal rendering of an integer, as the DOM stringifies the
`option.value = year` assignment in `populateFilters`. -/
def intStr (y : Int) : Str :=
  if y < 0 then '-' :: natStr y.natAbs else natStr y.toNat

/-- The value set of the year dropdown after `populateFilters`: the
`All Years` option's empty value plus the distinct item years. -/
def yearOptionValues (items : List Tutorial) : List Str :=
  [] :: ((items.map (fun t => t.year)).dedup).map intStr

/-- The value set of the topic dropdown after `populateFilters`: the
`All Topics` option's empty value plus the items' distinct keywords. -/
def topicOptionValues (items : List Tutorial) : List Str :=
  [] :: (items.flatMap (fun t => t.keywords)).dedup

/-- Model of assigning `v` to a `<select>` element's `value`: the
assignment selects an option only if one carries exactly that value;
otherwise the selection clears and `value` reads back the empty
string. -/
def setSelectValue (opts : List Str) (v : Str) : Str :=
  if v ∈ opts then v else []

/-- Model of `initializeFromURL` against the real page, where `year`
and `topic` are `<select>` elements already populated by
`populateFilters` (which runs first): a present key is assigned to its
control — the search text input keeps any value, while a select keeps
the value only if it matches one of its options and otherwise resets
to empty — and a missing key leaves its control empty. -/
def fromQueryDom (items : List Tutorial) (q : List (Str × Str)) : FilterState :=
  { searchText := (getParam q "search".toList).getD []
    yearFilter :=
      match getParam q "year".toList with
      | some v => setSelectValue (yearOptionValues items) v
      | none => []
    topicFilter :=
      match getParam q "topic".toList with
      | some v => setSelectValue (topicOptionValues items) v
      | none => [] }

/-- An observable side effect of one `filterTutorials` run. -/
inductive Effect where
  | renderCards (groups : List (Int × List Tutorial))
  | renderEmpty
  | countText (msg : Str)
  | urlSync (params : List (Str × Str))
  | clearVisible (visible : Bool)
deriving DecidableEq, Repr

/-- Model of `updateResultsCount`: the indicator text for `count` shown of
`total`. -/
def countMsg (count total : Nat) : Str :=
  if count = total then
    "Showing all ".toList ++ natStr total ++ " tutorials".toList
  else
    "Showing ".toList ++ natStr count ++ " of ".toList ++ natStr total ++ " tutorials".toList

/-- The year sections built by `renderTutorials` (it regroups the
already-ordered list by year, newest first). -/
def renderGroups (tuts : List Tutorial) : List (Int × List Tutorial) :=
  (sortedYearsDesc tuts).map (fun y => (y, yearGroup tuts y))

/-- The effect trace of `renderTutorials tuts` with `total` items
loaded: the empty state (and a zero count) on an empty list, otherwise
the year-sectioned cards followed by the count update. -/
def renderTrace (total : Nat) (tuts : List Tutorial) : List Effect :=
  if tuts.isEmpty then [Effect.renderEmpty, Effect.countText (countMsg 0 total)]
  else [Effect.renderCards (renderGroups tuts), Effect.countText (countMsg tuts.length total)]

/-- Model of `searchInput.value || yearSelect.value || topicSelect.value` in
`updateClearButton`: some filter field is non-empty. -/
def anyActive (s : FilterState) : Bool :=
  !s.searchText.isEmpty || !s.yearFilter.isEmpty || !s.topicFilter.isEmpty

/-- The effect trace of one `filterTutorials` run over the loaded
collection `allT` in filter state `s`: compute the result, render it
(which updates the count), sync the URL, then update the clear-button
visibility — in exactly the order the source performs them. -/
def filterTutorialsTrace (rand : Int → Nat → Nat) (s : FilterState)
    (allT : List Tutorial) : List Effect :=
  renderTrace allT.length (applyEngine rand s allT) ++
    [Effect.urlSync (toQuery s), Effect.clearVisible (anyActive s)]

/-- A tag for each effect constructor, used to compare effect orders:
`0` render, `1` count indicator, `2` URL sync, `3` clear-button
visibility. -/
def effTag : Effect → Nat
  | Effect.renderCards _ => 0
  | Effect.renderEmpty => 0
  | Effect.countText _ => 1
  | Effect.urlSync _ => 2
  | Effect.clearVisible _ => 3

/-- State of the debounce simulator: the pending timer's fire time (if
armed), the current search-input value, and the engine runs performed
so far (fire time and input value read at fire time). -/
structure DebounceState where
  pending : Option Nat
  value : Str
  runs : List (Nat × Str)
deriving DecidableEq, Repr

/-- Initial debounce state: no timer armed, empty input, no runs. -/
def debounceInit : DebounceState := ⟨none, [], []⟩

/-- Fire the pending timer if its fire time has arrived by time `t`:
the scheduled `filterTutorials` runs with the input value current at
fire time. -/
def fireIfDue (st : DebounceState) (t : Nat) : DebounceState :=
  match st.pending with
  | some ft => if ft ≤ t then ⟨none, st.value, st.runs ++ [(ft, st.value)]⟩ else st
  | none => st

/-- One input event `(t, v)`: any timer due before it fires first; then
`handleSearch` runs — `clearTimeout(searchDebounce)` cancels the
pending timer and `setTimeout(..., 300)` arms a new one for `t + 300`,
with the input now holding `v`. -/
def debounceStep (st : DebounceState) (e : Nat × Str) : DebounceState :=
  let st' := fireIfDue st e.1
  ⟨some (e.1 + 300), e.2, st'.runs⟩

/-- After the last event, let any still-pending timer fire. -/
def debounceFlush (st : DebounceState) : List (Nat × Str) :=
  match st.pending with
  | some ft => st.runs ++ [(ft, st.value)]
  | none => st.runs

/-- The engine runs produced by a time-ordered burst of search-input
events under the 300 ms debounce of `handleSearch`. -/
def debounceRuns (events : List (Nat × Str)) : List (Nat × Str) :=
  debounceFlush (events.foldl debounceStep debounceInit)

/-- The spec's search sub-filter, read literally: the raw search text
is empty, or is a case-insensitive substring of the title, of some
author, or of some keyword.  (No whitespace trimming.) -/
def searchHoldsStated (s : FilterState) (t : Tutorial) : Prop :=
  s.searchText = [] ∨
    jsToLower s.searchText <:+: jsToLower t.title ∨
    (∃ a ∈ t.authors, jsToLower s.searchText <:+: jsToLower a) ∨
    (∃ kw ∈ t.keywords, jsToLower s.searchText <:+: jsToLower kw)

/-- The search sub-filter as the code implements it, in relational
form: the case-folded, whitespace-trimmed search text is empty, or is
a substring of the case-folded title, of some case-folded author, or
of some case-folded keyword. -/
def searchHolds (s : FilterState) (t : Tutorial) : Prop :=
  searchTermOf s = [] ∨
    searchTermOf s <:+: jsToLower t.title ∨
    (∃ a ∈ t.authors, searchTermOf s <:+: jsToLower a) ∨
    (∃ kw ∈ t.keywords, searchTermOf s <:+: jsToLower kw)

/-- The spec's year sub-filter: unset, or the item's year equals the
(integer reading of the) year filter. -/
def yearHolds (s : FilterState) (t : Tutorial) : Prop :=
  s.yearFilter = [] ∨ jsStringToInt? s.yearFilter = some t.year

/-- The spec's topic sub-filter: unset, or an exact member of the
item's keyword set. -/
def topicHolds (s : FilterState) (t : Tutorial) : Prop :=
  s.topicFilter = [] ∨ s.topicFilter ∈ t.keywords

instance (s : FilterState) (t : Tutorial) : Decidable (searchHoldsStated s t) := by
  unfold searchHoldsStated; infer_instance

instance (s : FilterState) (t : Tutorial) : Decidable (searchHolds s t) := by
  unfold searchHolds; infer_instance

instance (s : FilterState) (t : Tutorial) : Decidable (yearHolds s t) := by
  unfold yearHolds; infer_instance

instance (s : FilterState) (t : Tutorial) : Decidable (topicHolds s t) := by
  unfold topicHolds; infer_instance

/-- The item and filter state of the search-trimming counterexample:
the search text `"ml "` carries a trailing space. -/
def tHtml : Tutorial := ⟨"html".toList, [], 2023, Status.unset, [], none, none⟩

/-- A filter state whose search text ends in a space. -/
def sTrailingSpace : FilterState := ⟨"ml ".toList, [], []⟩

/-- The query of the C6 witness: a malformed year value. -/
def qBadYear : List (Str × Str) := [("year".toList, "20x3".toList)]

/-- The collection of the C6 witness: one item, of year 2023. -/
def tutsOnly2023 : List Tutorial :=
  [⟨"Deep Learning Basics".toList, [], 2023, Status.winner, ["ml".toList], none, none⟩]

/-- Moving the `k`-th element of a list to the front while writing `x`
into its old slot is a permutation of putting `x` in front. -/
theorem cons_get_set_perm {α : Type} (x : α) :
    ∀ (xs : List α) (k : Nat) (hk : k < xs.length),
      List.Perm (xs[k] :: xs.set k x) (x :: xs) := by
  intro xs
  induction xs with
  | nil => intro k hk; simp at hk
  | cons y ys ih =>
    intro k hk
    cases k with
    | zero => simpa using List.Perm.swap x y ys
    | succ k =>
      have hk' : k < ys.length := by simpa using hk
      have h1 : List.Perm (ys[k] :: y :: ys.set k x) (y :: ys[k] :: ys.set k x) :=
        List.Perm.swap y (ys[k]) (ys.set k x)
      have h2 : List.Perm (y :: ys[k] :: ys.set k x) (y :: x :: ys) :=
        (ih k hk').cons y
      have h3 : List.Perm (y :: x :: ys) (x :: y :: ys) := List.Perm.swap x y ys
      simpa using (h1.trans h2).trans h3

/-- Writing `l[j]` at position `i` and `l[i]` at position `j` (the
in-bounds case of a swap) permutes the list. -/
theorem set_set_swap_perm {α : Type} :
    ∀ (l : List α) (i j : Nat) (hi : i < l.length) (hj : j < l.length),
      List.Perm ((l.set i (l[j])).set j (l[i])) l := by
  intro l
  induction l with
  | nil => intro i j hi _; simp at hi
  | cons x xs ih =>
    intro i j hi hj
    cases i with
    | zero =>
      cases j with
      | zero => simp
      | succ k =>
        have hk : k < xs.length := by simpa using hj
        simpa using cons_get_set_perm x xs k hk
    | succ m =>
      have hm : m < xs.length := by simpa using hi
      cases j with
      | zero =>
        simpa using cons_get_set_perm x xs m hm
      | succ k =>
        have hk : k < xs.length := by simpa using hj
        simpa using (ih m k hm hk).cons x

/-- A `listSwap` is a permutation, whatever the indices. -/
theorem listSwap_perm {α : Type} (l : List α) (i j : Nat) :
    List.Perm (listSwap l i j) l := by
  cases hi : l[i]? with
  | none => simp only [listSwap, hi]; exact List.Perm.refl l
  | some a =>
    cases hj : l[j]? with
    | none => simp only [listSwap, hi, hj]; exact List.Perm.refl l
    | some b =>
      obtain ⟨hi', ha⟩ := List.getElem?_eq_some_iff.mp hi
      obtain ⟨hj', hb⟩ := List.getElem?_eq_some_iff.mp hj
      simp only [listSwap, hi, hj]
      rw [← ha, ← hb]
      exact set_set_swap_perm l i j hi' hj'

/-- Every run of the Fisher–Yates loop permutes its input, whatever the
random draws. -/
theorem fyAux_perm {α : Type} (rand : Nat → Nat) :
    ∀ (n : Nat) (l : List α), List.Perm (fyAux rand l n) l := by
  intro n
  induction n with
  | zero => intro l; exact List.Perm.refl l
  | succ i ih =>
    intro l
    exact (ih _).trans (listSwap_perm l (i + 1) (rand (i + 1) % (i + 2)))

/-- The Fisher–Yates shuffle is a permutation for every oracle. -/
theorem fisherYates_perm {α : Type} (rand : Nat → Nat) (l : List α) :
    List.Perm (fisherYates rand l) l :=
  fyAux_perm rand (l.length - 1) l

/-- A finalist is never a winner, so filtering finalists out of the
non-winners is the same as filtering them out of everything. -/
theorem filter_finalist_of_not_winner (g : List Tutorial) :
    (g.filter (fun t => !isWinner t)).filter isFinalist = g.filter isFinalist := by
  rw [List.filter_filter]
  exact List.filter_congr (fun t _ => by
    cases h : t.status <;> simp [isFinalist, isWinner, h])

/-- An item is in the regular tier exactly when it is neither a winner
nor a finalist. -/
theorem filter_regular_of_not_winner_finalist (g : List Tutorial) :
    (g.filter (fun t => !isWinner t)).filter (fun t => !isFinalist t) =
      g.filter isRegularTier := by
  rw [List.filter_filter]
  exact List.filter_congr (fun t _ => by
    cases h : t.status <;> simp [isFinalist, isWinner, isRegularTier, h])

/-- The three status tiers partition a group: concatenating the winner,
finalist and regular filters permutes the group. -/
theorem tier_partition_perm (g : List Tutorial) :
    List.Perm (g.filter isWinner ++ g.filter isFinalist ++ g.filter isRegularTier) g := by
  have h1 := List.filter_append_perm isWinner g
  have h2 := List.filter_append_perm isFinalist (g.filter (fun t => !isWinner t))
  have h3 : List.Perm (g.filter isFinalist ++ g.filter isRegularTier)
      (g.filter (fun t => !isWinner t)) := by
    rw [← filter_finalist_of_not_winner, ← filter_regular_of_not_winner_finalist]
    exact h2
  have h4 := ((List.Perm.refl (g.filter isWinner)).append h3).trans h1
  simpa [List.append_assoc] using h4

/-- Ordering a year group by tier permutes the group, whatever the
random draws used on the regular tier. -/
theorem sortGroup_perm (rand : Nat → Nat) (g : List Tutorial) :
    List.Perm (sortGroup rand g) g := by
  have hfy : List.Perm (fisherYates rand (g.filter isRegularTier)) (g.filter isRegularTier) :=
    fisherYates_perm rand _
  have h := ((List.Perm.refl (g.filter isWinner ++ g.filter isFinalist)).append hfy).trans
    (by simpa [List.append_assoc] using tier_partition_perm g)
  simpa [sortGroup, List.append_assoc] using h

/-- Members of a sorted group come from the group. -/
theorem mem_of_mem_sortGroup {rand : Nat → Nat} {g : List Tutorial} {t : Tutorial}
    (h : t ∈ sortGroup rand g) : t ∈ g :=
  (sortGroup_perm rand g).mem_iff.mp h

/-- The sorted year list has no duplicates. -/
theorem sortedYearsDesc_nodup (ts : List Tutorial) : (sortedYearsDesc ts).Nodup :=
  ((List.perm_insertionSort (fun a b => a ≥ b) _).nodup_iff).mpr (List.nodup_dedup _)

/-- A year is in the sorted year list exactly when some item has it. -/
theorem mem_sortedYearsDesc {ts : List Tutorial} {y : Int} :
    y ∈ sortedYearsDesc ts ↔ ∃ t ∈ ts, t.year = y := by
  unfold sortedYearsDesc
  rw [(List.perm_insertionSort (fun a b => a ≥ b) _).mem_iff, List.mem_dedup, List.mem_map]

/-- The sorted year list is non-increasing. -/
theorem sortedYearsDesc_sorted (ts : List Tutorial) :
    List.Sorted (fun a b => a ≥ b) (sortedYearsDesc ts) :=
  List.sorted_insertionSort (fun a b => a ≥ b) _

/-- The sorted year list is strictly descending. -/
theorem sortedYearsDesc_strict (ts : List Tutorial) :
    List.Pairwise (fun a b => a > b) (sortedYearsDesc ts) := by
  have h1 : List.Pairwise (fun a b : Int => a ≥ b) (sortedYearsDesc ts) :=
    sortedYearsDesc_sorted ts
  have h2 : List.Pairwise (fun a b : Int => a ≠ b) (sortedYearsDesc ts) :=
    sortedYearsDesc_nodup ts
  exact (h1.and h2).imp (fun h => by omega)

/-- Pointwise-equal functions give equal flat maps. -/
theorem flatMap_congr_mem {α β : Type} {l : List α} {f g : α → List β}
    (h : ∀ a ∈ l, f a = g a) : l.flatMap f = l.flatMap g := by
  induction l with
  | nil => rfl
  | cons a l ih =>
    rw [List.flatMap_cons, List.flatMap_cons, h a (by simp),
      ih (fun x hx => h x (by simp [hx]))]

/-- Pointwise-permuted functions give permuted flat maps. -/
theorem flatMap_perm_congr {α β : Type} {l : List α} {f g : α → List β}
    (h : ∀ a ∈ l, List.Perm (f a) (g a)) : List.Perm (l.flatMap f) (l.flatMap g) := by
  induction l with
  | nil => exact List.Perm.refl []
  | cons a l ih =>
    rw [List.flatMap_cons, List.flatMap_cons]
    exact (h a (by simp)).append (ih (fun x hx => h x (by simp [hx])))

/-- Concatenating the year groups over a duplicate-free list of years
covering every item's year recovers the item list up to permutation. -/
theorem flatMap_yearGroup_perm :
    ∀ (ys : List Int) (ts : List Tutorial), ys.Nodup → (∀ t ∈ ts, t.year ∈ ys) →
      List.Perm (ys.flatMap (fun y => yearGroup ts y)) ts := by
  intro ys
  induction ys with
  | nil =>
    intro ts _ hall
    cases ts with
    | nil => exact List.Perm.refl []
    | cons a l => exact absurd (hall a (by simp)) (by simp)
  | cons y ys ih =>
    intro ts hnd hall
    rw [List.flatMap_cons]
    have hy : y ∉ ys := (List.nodup_cons.mp hnd).1
    have e : ∀ y' ∈ ys, yearGroup ts y' =
        yearGroup (ts.filter (fun t => !decide (t.year = y))) y' := by
      intro y' hy'
      have hne : y' ≠ y := fun h => hy (h ▸ hy')
      unfold yearGroup
      rw [List.filter_filter]
      exact List.filter_congr (fun t _ => by
        by_cases h : t.year = y' <;> simp [h, hne])
    have hrec := ih (ts.filter (fun t => !decide (t.year = y))) (List.nodup_cons.mp hnd).2
      (by
        intro t ht
        obtain ⟨ht1, ht2⟩ := List.mem_filter.mp ht
        have := hall t ht1
        simp only [List.mem_cons] at this
        rcases this with h | h
        · simp [h] at ht2
        · exact h)
    rw [flatMap_congr_mem e]
    have hfin := List.filter_append_perm (fun t => decide (t.year = y)) ts
    exact ((List.Perm.refl (yearGroup ts y)).append hrec).trans
      (by simpa [yearGroup] using hfin)

/-- The grouping-and-ordering phase neither drops nor duplicates items:
its output is a permutation of its input, for every oracle. -/
theorem shuffleWithinYears_perm (rand : Int → Nat → Nat) (ts : List Tutorial) :
    List.Perm (shuffleWithinYears rand ts) ts := by
  unfold shuffleWithinYears
  have h1 : List.Perm ((sortedYearsDesc ts).flatMap (fun y => sortGroup (rand y) (yearGroup ts y)))
      ((sortedYearsDesc ts).flatMap (fun y => yearGroup ts y)) :=
    flatMap_perm_congr (fun y _ => sortGroup_perm (rand y) (yearGroup ts y))
  exact h1.trans (flatMap_yearGroup_perm (sortedYearsDesc ts) ts (sortedYearsDesc_nodup ts)
    (fun t ht => mem_sortedYearsDesc.mpr ⟨t, ht, rfl⟩))

/-- Every member of a sorted year group has that group's year. -/
theorem year_of_mem_sortGroup {rand : Nat → Nat} {ts : List Tutorial} {y : Int} {t : Tutorial}
    (h : t ∈ sortGroup rand (yearGroup ts y)) : t.year = y := by
  have := List.mem_filter.mp (mem_of_mem_sortGroup h)
  simpa using this.2

/-- An empty group sorts to the empty list. -/
theorem sortGroup_nil (rand : Nat → Nat) : sortGroup rand [] = [] := rfl

/-- Restricting the engine output to one year recovers exactly that
year's sorted group: the group extraction lemma. -/
theorem shuffle_filter_year (rand : Int → Nat → Nat) (ts : List Tutorial) (y : Int) :
    yearGroup (shuffleWithinYears rand ts) y = sortGroup (rand y) (yearGroup ts y) := by
  show List.filter (fun t => decide (t.year = y)) (shuffleWithinYears rand ts) = _
  unfold shuffleWithinYears
  rw [List.filter_flatMap]
  have e : ∀ y' ∈ sortedYearsDesc ts,
      List.filter (fun t => decide (t.year = y)) (sortGroup (rand y') (yearGroup ts y')) =
        if y' = y then sortGroup (rand y) (yearGroup ts y) else [] := by
    intro y' _
    by_cases h : y' = y
    · subst h
      rw [if_pos rfl]
      exact List.filter_eq_self.mpr (fun t ht => by
        simpa using year_of_mem_sortGroup ht)
    · rw [if_neg h]
      exact List.filter_eq_nil_iff.mpr (fun t ht => by
        have := year_of_mem_sortGroup ht
        simp [this, h])
  rw [flatMap_congr_mem e]
  have key : ∀ (l : List Int), l.Nodup →
      (l.flatMap (fun y' => if y' = y then sortGroup (rand y) (yearGroup ts y) else [])) =
        if y ∈ l then sortGroup (rand y) (yearGroup ts y) else [] := by
    intro l hl
    induction l with
    | nil => simp
    | cons a l ih =>
      rw [List.flatMap_cons, ih (List.nodup_cons.mp hl).2]
      by_cases ha : a = y
      · subst ha
        have hy : a ∉ l := (List.nodup_cons.mp hl).1
        simp [hy]
      · simp [ha, List.mem_cons, Ne.symm ha]
  rw [key (sortedYearsDesc ts) (sortedYearsDesc_nodup ts)]
  by_cases hmem : y ∈ sortedYearsDesc ts
  · rw [if_pos hmem]
  · rw [if_neg hmem]
    have hempty : yearGroup ts y = [] := by
      unfold yearGroup
      exact List.filter_eq_nil_iff.mpr (fun t ht => by
        intro hdec
        exact hmem (mem_sortedYearsDesc.mpr ⟨t, ht, by simpa using hdec⟩))
    rw [hempty, sortGroup_nil]

/-- A list whose elements are all equal is non-increasing. -/
theorem pairwise_ge_of_const :
    ∀ (l : List Int) (y : Int), (∀ x ∈ l, x = y) → List.Pairwise (fun a b => a ≥ b) l := by
  intro l
  induction l with
  | nil => intro y _; exact List.Pairwise.nil
  | cons a l ih =>
    intro y h
    refine List.Pairwise.cons (fun b hb => ?_) (ih y (fun x hx => h x (by simp [hx])))
    rw [h a (by simp), h b (by simp [hb])]

/-- Concatenating per-year blocks over a strictly descending year list
yields a non-increasing year sequence. -/
theorem flatMap_year_sorted :
    ∀ (ys : List Int) (f : Int → List Tutorial), List.Pairwise (fun a b => a > b) ys →
      (∀ y, ∀ t ∈ f y, t.year = y) →
      List.Sorted (fun a b => a ≥ b) ((ys.flatMap f).map (fun t => t.year)) := by
  intro ys
  induction ys with
  | nil => intro f _ _; simp [List.Sorted]
  | cons y ys ih =>
    intro f hp hf
    rw [List.flatMap_cons, List.map_append]
    rw [List.pairwise_cons] at hp
    refine List.pairwise_append.mpr ⟨?_, ih f hp.2 hf, ?_⟩
    · exact pairwise_ge_of_const _ y (fun x hx => by
        obtain ⟨t, ht, rfl⟩ := List.mem_map.mp hx
        exact hf y t ht)
    · intro a ha b hb
      obtain ⟨t, ht, rfl⟩ := List.mem_map.mp ha
      obtain ⟨u, hu, rfl⟩ := List.mem_map.mp hb
      obtain ⟨y', hy', hu'⟩ := List.mem_flatMap.mp hu
      rw [hf y t ht, hf y' u hu']
      exact le_of_lt (hp.1 y' hy')

/-- The year sequence of the engine output is non-increasing: items of
one year are contiguous and the year blocks descend. -/
theorem shuffle_years_sorted (rand : Int → Nat → Nat) (ts : List Tutorial) :
    List.Sorted (fun a b => a ≥ b) ((shuffleWithinYears rand ts).map (fun t => t.year)) := by
  unfold shuffleWithinYears
  exact flatMap_year_sorted (sortedYearsDesc ts) _ (sortedYearsDesc_strict ts)
    (fun y t ht => year_of_mem_sortGroup ht)

/-- The distinct years of the engine output, in order of appearance,
are strictly descending. -/
theorem shuffle_years_dedup_strict (rand : Int → Nat → Nat) (ts : List Tutorial) :
    List.Pairwise (fun a b => a > b)
      (((shuffleWithinYears rand ts).map (fun t => t.year)).dedup) := by
  have h1 : List.Pairwise (fun a b : Int => a ≥ b)
      (((shuffleWithinYears rand ts).map (fun t => t.year)).dedup) :=
    List.Pairwise.sublist (List.dedup_sublist _) (shuffle_years_sorted rand ts)
  have h2 : List.Pairwise (fun a b : Int => a ≠ b)
      (((shuffleWithinYears rand ts).map (fun t => t.year)).dedup) :=
    List.nodup_dedup _
  exact (h1.and h2).imp (fun h => by omega)

/-- A finalist-status item is not a winner. -/
theorem not_winner_of_finalist {t : Tutorial} (h : isFinalist t = true) :
    isWinner t = false := by
  simp only [isFinalist, decide_eq_true_eq] at h
  simp [isWinner, h]

/-- A regular-tier item is not a winner. -/
theorem not_winner_of_regular {t : Tutorial} (h : isRegularTier t = true) :
    isWinner t = false := by
  simp only [isRegularTier, decide_eq_true_eq] at h
  rcases h with h | h <;> simp [isWinner, h]

/-- A winner-status item is not a finalist. -/
theorem not_finalist_of_winner {t : Tutorial} (h : isWinner t = true) :
    isFinalist t = false := by
  simp only [isWinner, decide_eq_true_eq] at h
  simp [isFinalist, h]

/-- A regular-tier item is not a finalist. -/
theorem not_finalist_of_regular {t : Tutorial} (h : isRegularTier t = true) :
    isFinalist t = false := by
  simp only [isRegularTier, decide_eq_true_eq] at h
  rcases h with h | h <;> simp [isFinalist, h]

/-- A winner-status item is not in the regular tier. -/
theorem not_regular_of_winner {t : Tutorial} (h : isWinner t = true) :
    isRegularTier t = false := by
  simp only [isWinner, decide_eq_true_eq] at h
  simp [isRegularTier, h]

/-- A finalist-status item is not in the regular tier. -/
theorem not_regular_of_finalist {t : Tutorial} (h : isFinalist t = true) :
    isRegularTier t = false := by
  simp only [isFinalist, decide_eq_true_eq] at h
  simp [isRegularTier, h]

/-- The winners of a sorted group are exactly the winners of the group,
in the group's own order. -/
theorem sortGroup_filter_winner (rand : Nat → Nat) (g : List Tutorial) :
    (sortGroup rand g).filter isWinner = g.filter isWinner := by
  unfold sortGroup
  rw [List.filter_append, List.filter_append]
  have h1 : (g.filter isWinner).filter isWinner = g.filter isWinner :=
    List.filter_eq_self.mpr (fun t ht => (List.mem_filter.mp ht).2)
  have h2 : (g.filter isFinalist).filter isWinner = [] :=
    List.filter_eq_nil_iff.mpr (fun t ht => by
      simp [not_winner_of_finalist (List.mem_filter.mp ht).2])
  have h3 : (fisherYates rand (g.filter isRegularTier)).filter isWinner = [] :=
    List.filter_eq_nil_iff.mpr (fun t ht => by
      have hmem := (fisherYates_perm rand _).mem_iff.mp ht
      simp [not_winner_of_regular (List.mem_filter.mp hmem).2])
  rw [h1, h2, h3]
  simp

/-- The finalists of a sorted group are exactly the finalists of the
group, in the group's own order. -/
theorem sortGroup_filter_finalist (rand : Nat → Nat) (g : List Tutorial) :
    (sortGroup rand g).filter isFinalist = g.filter isFinalist := by
  unfold sortGroup
  rw [List.filter_append, List.filter_append]
  have h1 : (g.filter isWinner).filter isFinalist = [] :=
    List.filter_eq_nil_iff.mpr (fun t ht => by
      simp [not_finalist_of_winner (List.mem_filter.mp ht).2])
  have h2 : (g.filter isFinalist).filter isFinalist = g.filter isFinalist :=
    List.filter_eq_self.mpr (fun t ht => (List.mem_filter.mp ht).2)
  have h3 : (fisherYates rand (g.filter isRegularTier)).filter isFinalist = [] :=
    List.filter_eq_nil_iff.mpr (fun t ht => by
      have hmem := (fisherYates_perm rand _).mem_iff.mp ht
      simp [not_finalist_of_regular (List.mem_filter.mp hmem).2])
  rw [h1, h2, h3]
  simp

/-- The regular tier of a sorted group is its shuffled regular tier. -/
theorem sortGroup_filter_regular (rand : Nat → Nat) (g : List Tutorial) :
    (sortGroup rand g).filter isRegularTier = fisherYates rand (g.filter isRegularTier) := by
  unfold sortGroup
  rw [List.filter_append, List.filter_append]
  have h1 : (g.filter isWinner).filter isRegularTier = [] :=
    List.filter_eq_nil_iff.mpr (fun t ht => by
      simp [not_regular_of_winner (List.mem_filter.mp ht).2])
  have h2 : (g.filter isFinalist).filter isRegularTier = [] :=
    List.filter_eq_nil_iff.mpr (fun t ht => by
      simp [not_regular_of_finalist (List.mem_filter.mp ht).2])
  have h3 : (fisherYates rand (g.filter isRegularTier)).filter isRegularTier =
      fisherYates rand (g.filter isRegularTier) :=
    List.filter_eq_self.mpr (fun t ht => by
      have hmem := (fisherYates_perm rand _).mem_iff.mp ht
      exact (List.mem_filter.mp hmem).2)
  rw [h1, h2, h3]
  simp

/-- The engine on the empty collection yields the empty result. -/
theorem shuffleWithinYears_nil (rand : Int → Nat → Nat) : shuffleWithinYears rand [] = [] := rfl

/-- Folding the debounce step over a burst (each event less than 300 ms
after the previous one) never fires the pending timer: it just keeps
rescheduling, ending with the last event's value and fire time. -/
theorem debounce_fold_burst :
    ∀ (es : List (Nat × Str)) (t : Nat) (v : Str) (R : List (Nat × Str)),
      List.Chain' (fun a b => a.1 < b.1 ∧ b.1 < a.1 + 300) ((t, v) :: es) →
      es.foldl debounceStep ⟨some (t + 300), v, R⟩ =
        ⟨some ((((t, v) :: es).getLast (List.cons_ne_nil _ _)).1 + 300),
          (((t, v) :: es).getLast (List.cons_ne_nil _ _)).2, R⟩ := by
  intro es
  induction es with
  | nil => intro t v R _; simp
  | cons e es ih =>
    intro t v R hchain
    rw [List.chain'_cons] at hchain
    have hstep : debounceStep ⟨some (t + 300), v, R⟩ e = ⟨some (e.1 + 300), e.2, R⟩ := by
      unfold debounceStep fireIfDue
      simp only
      rw [if_neg (by omega : ¬(t + 300 ≤ e.1))]
    rw [List.foldl_cons, hstep]
    have := ih e.1 e.2 R (by simpa using hchain.2)
    simpa [List.getLast_cons] using this

/-- The Boolean search sub-filter agrees with its relational reading. -/
theorem matchesSearch_iff (s : FilterState) (t : Tutorial) :
    matchesSearch s t = true ↔ searchHolds s t := by
  unfold matchesSearch searchHolds jsIncludes
  simp [List.isEmpty_iff, List.any_eq_true, or_assoc]

/-- The Boolean year sub-filter agrees with its relational reading. -/
theorem matchesYear_iff (s : FilterState) (t : Tutorial) :
    matchesYear s t = true ↔ yearHolds s t := by
  unfold matchesYear yearHolds
  simp [List.isEmpty_iff]

/-- The Boolean topic sub-filter agrees with its relational reading. -/
theorem matchesTopic_iff (s : FilterState) (t : Tutorial) :
    matchesTopic s t = true ↔ topicHolds s t := by
  unfold matchesTopic topicHolds
  simp [List.isEmpty_iff]

/-- The Boolean item predicate agrees with the relational reading of
its three sub-filters. -/
theorem tutorialPred_iff (s : FilterState) (t : Tutorial) :
    tutorialPred s t = true ↔ (searchHolds s t ∧ yearHolds s t ∧ topicHolds s t) := by
  unfold tutorialPred
  simp [Bool.and_eq_true, matchesSearch_iff, matchesYear_iff, matchesTopic_iff, and_assoc]

/-- Filtering by year commutes with the engine's predicate filtering:
the matched items of year `y` are the year-`y` items that match. -/
theorem yearGroup_filterMatches (s : FilterState) (items : List Tutorial) (y : Int) :
    yearGroup (filterMatches s items) y = (yearGroup items y).filter (tutorialPred s) := by
  unfold yearGroup filterMatches
  rw [List.filter_filter, List.filter_filter]
  exact List.filter_congr (fun t _ => by rw [Bool.and_comm])

/-- C1 (amended): an item is in the Filter Engine's matched set iff it
is in the collection and satisfies the conjunction of the three
sub-filters, where the search text is first case-folded and trimmed of
surrounding whitespace (and the search filter counts as unset when the
trimmed text is empty), the year filter is compared through its integer
reading, and the topic filter is an exact keyword member. -/
theorem mec_filter_predicate (s : FilterState) (ts : List Tutorial) (t : Tutorial) :
    t ∈ filterMatches s ts ↔ t ∈ ts ∧ searchHolds s t ∧ yearHolds s t ∧ topicHolds s t := by
  unfold filterMatches
  rw [List.mem_filter, tutorialPred_iff]

/-- C1 (counterexample): with search text `"ml "` and an item titled
`"html"`, the code matches the item (it trims the search text to
`"ml"`), but the claim's untrimmed search predicate does not hold — so
the claimed equivalence is false at this input. -/
theorem mec_filter_predicate_ce :
    tHtml ∈ filterMatches sTrailingSpace [tHtml] ∧
      ¬(tHtml ∈ [tHtml] ∧ searchHoldsStated sTrailingSpace tHtml ∧
        yearHolds sTrailingSpace tHtml ∧ topicHolds sTrailingSpace tHtml) := by
  decide

/-- C2: in every result of the Filter Engine, within every year group
the winners precede the finalists, which precede the regular tier; the
winners and finalists keep exactly the relative order they have in the
input collection, and the regular tier is only ever permuted. -/
theorem mec_tier_ordering (rand : Int → Nat → Nat) (s : FilterState)
    (items : List Tutorial) (y : Int) :
    yearGroup (applyEngine rand s items) y =
        (yearGroup (applyEngine rand s items) y).filter isWinner ++
        (yearGroup (applyEngine rand s items) y).filter isFinalist ++
        (yearGroup (applyEngine rand s items) y).filter isRegularTier ∧
      (yearGroup (applyEngine rand s items) y).filter isWinner =
        ((yearGroup items y).filter (tutorialPred s)).filter isWinner ∧
      (yearGroup (applyEngine rand s items) y).filter isFinalist =
        ((yearGroup items y).filter (tutorialPred s)).filter isFinalist ∧
      List.Perm ((yearGroup (applyEngine rand s items) y).filter isRegularTier)
        (((yearGroup items y).filter (tutorialPred s)).filter isRegularTier) := by
  have hx : yearGroup (applyEngine rand s items) y =
      sortGroup (rand y) (yearGroup (filterMatches s items) y) :=
    shuffle_filter_year rand (filterMatches s items) y
  rw [hx, ← yearGroup_filterMatches]
  refine ⟨?_, sortGroup_filter_winner _ _, sortGroup_filter_finalist _ _, ?_⟩
  · rw [sortGroup_filter_winner, sortGroup_filter_finalist, sortGroup_filter_regular]
    rfl
  · rw [sortGroup_filter_regular]
    exact fisherYates_perm _ _

/-- C3: in every result of the Filter Engine the year sequence is
non-increasing (so each year's items are contiguous) and the distinct
years appear in strictly descending numeric order. -/
theorem mec_year_groups_descending (rand : Int → Nat → Nat) (s : FilterState)
    (items : List Tutorial) :
    List.Sorted (fun a b => a ≥ b) ((applyEngine rand s items).map (fun t => t.year)) ∧
      List.Pairwise (fun a b => a > b)
        (((applyEngine rand s items).map (fun t => t.year)).dedup) :=
  ⟨shuffle_years_sorted rand (filterMatches s items),
    shuffle_years_dedup_strict rand (filterMatches s items)⟩

/-- C10: the grouping-and-ordering phase neither drops nor duplicates
items — `shuffleWithinYears` returns a permutation of its input, for
every input list and every sequence of random draws. -/
theorem mec_shuffle_no_loss (rand : Int → Nat → Nat) (ts : List Tutorial) :
    List.Perm (shuffleWithinYears rand ts) ts :=
  shuffleWithinYears_perm rand ts

/-- C5: the engine's `apply` is a total function of its inputs (it is
defined for every collection and state); its output is always exactly
the matched set up to ordering, and when nothing matches — in
particular on the empty collection — it returns the empty result rather
than failing. -/
theorem mec_apply_total (rand : Int → Nat → Nat) (s : FilterState) (ts : List Tutorial) :
    List.Perm (applyEngine rand s ts) (filterMatches s ts) ∧
      (filterMatches s ts = [] → applyEngine rand s ts = []) ∧
      applyEngine rand s [] = [] := by
  refine ⟨shuffleWithinYears_perm rand _, fun h => ?_, rfl⟩
  unfold applyEngine
  rw [h, shuffleWithinYears_nil]

/-- C5 witness: on the empty collection, with no matching filter
state, the engine returns the empty result. -/
theorem mec_apply_total_witness :
    applyEngine (fun _ _ => 0) ⟨"nothing".toList, [], []⟩ [] = [] :=
  (mec_apply_total (fun _ _ => 0) ⟨"nothing".toList, [], []⟩ []).2.1 (by decide)

/-- C4: the URL codec round-trips every filter state (values are taken
verbatim), and it never serializes an empty-string parameter — each of
the three keys is absent from the query exactly when its field is
empty. -/
theorem mec_url_roundtrip (s : FilterState) :
    fromQuery (toQuery s) = s ∧
      (toQuery s).all (fun kv => !kv.2.isEmpty) = true ∧
      ((getParam (toQuery s) "search".toList = none) ↔ s.searchText = []) ∧
      ((getParam (toQuery s) "year".toList = none) ↔ s.yearFilter = []) ∧
      ((getParam (toQuery s) "topic".toList = none) ↔ s.topicFilter = []) := by
  obtain ⟨a, b, c⟩ := s
  have k1 : ("search".toList : Str) ≠ "year".toList := by decide
  have k2 : ("search".toList : Str) ≠ "topic".toList := by decide
  have k3 : ("year".toList : Str) ≠ "topic".toList := by decide
  by_cases h1 : a = [] <;> by_cases h2 : b = [] <;> by_cases h3 : c = [] <;>
    simp [toQuery, fromQuery, getParam, h1, h2, h3, List.isEmpty_iff,
      k1, k2, k3, Ne.symm k1, Ne.symm k2, Ne.symm k3]

/-- C6 (counterexample): with the URL query `?year=20x3` over a
2023-only collection, `initializeFromURL` assigns `"20x3"` to the year
select, whose options carry only `""` and `"2023"`; the select resets
to the empty string, so the value is not kept, and the engine — its
year filter now unset — matches the whole collection instead of
nothing.  Both central conjuncts of the claim fail at this input. -/
theorem mec_year_fail_open_ce :
    (fromQueryDom tutsOnly2023 qBadYear).yearFilter ≠ "20x3".toList ∧
      applyEngine (fun _ _ => 0) (fromQueryDom tutsOnly2023 qBadYear) tutsOnly2023 ≠ [] := by
  decide

/-- C6 (amended): a `year` query value that matches none of the year
select's option values (the empty string plus the decimal renderings
of existing item years — in particular any value with no integer
reading equal to an item's year) resets the select to the empty
string: the year filter becomes unset rather than kept, the year
sub-filter then accepts every item, and — when no search or topic
parameter is present — the engine returns the whole collection (no
error); a missing key leaves its field unset and an unrecognized key
is ignored. -/
theorem mec_year_fail_open (rand : Int → Nat → Nat) (items : List Tutorial)
    (q : List (Str × Str)) (yq : Str) (k v : Str) (extra : List (Str × Str))
    (hy : getParam q "year".toList = some yq)
    (hbad : yq ∉ yearOptionValues items)
    (hs : getParam q "search".toList = none)
    (ht : getParam q "topic".toList = none)
    (hk1 : k ≠ "search".toList) (hk2 : k ≠ "year".toList) (hk3 : k ≠ "topic".toList) :
    (fromQueryDom items q).yearFilter = [] ∧
      items.all (fun t => matchesYear (fromQueryDom items q) t) = true ∧
      List.Perm (applyEngine rand (fromQueryDom items q) items) items ∧
      fromQueryDom items [] = ⟨[], [], []⟩ ∧
      fromQueryDom items ((k, v) :: extra) = fromQueryDom items extra := by
  have hstate : fromQueryDom items q = ⟨[], [], []⟩ := by
    unfold fromQueryDom
    rw [hy, hs, ht]
    simp [setSelectValue, hbad]
  have hpred : ∀ t ∈ items, tutorialPred ⟨[], [], []⟩ t = true := fun t _ => rfl
  refine ⟨by rw [hstate], ?_, ?_, rfl, ?_⟩
  · rw [hstate]
    exact List.all_eq_true.mpr (fun t _ => rfl)
  · rw [hstate]
    unfold applyEngine
    rw [show filterMatches ⟨[], [], []⟩ items = items from List.filter_eq_self.mpr hpred]
    exact shuffleWithinYears_perm rand items
  · have hk1' : k ≠ ['s', 'e', 'a', 'r', 'c', 'h'] := by simpa using hk1
    have hk2' : k ≠ ['y', 'e', 'a', 'r'] := by simpa using hk2
    have hk3' : k ≠ ['t', 'o', 'p', 'i', 'c'] := by simpa using hk3
    simp [fromQueryDom, getParam, hk1', hk2', hk3']

/-- C6 witness: with the year parameter `"20x3"` over the 2023-only
collection, the year filter resets to unset, its sub-filter accepts
the item, the engine returns the whole collection; the empty query
yields the unset state; an unknown `"extra"` key is ignored. -/
theorem mec_year_fail_open_witness :
    (fromQueryDom tutsOnly2023 qBadYear).yearFilter = [] ∧
      tutsOnly2023.all (fun t => matchesYear (fromQueryDom tutsOnly2023 qBadYear) t) = true ∧
      List.Perm (applyEngine (fun _ _ => 0) (fromQueryDom tutsOnly2023 qBadYear) tutsOnly2023)
        tutsOnly2023 ∧
      fromQueryDom tutsOnly2023 [] = ⟨[], [], []⟩ ∧
      fromQueryDom tutsOnly2023 (("extra".toList, "zz".toList) :: qBadYear) =
        fromQueryDom tutsOnly2023 qBadYear :=
  mec_year_fail_open (fun _ _ => 0) tutsOnly2023 qBadYear "20x3".toList
    "extra".toList "zz".toList qBadYear
    (by decide) (by decide) (by decide) (by decide) (by decide) (by decide) (by decide)

/-- C7: under the 300 ms debounce, a burst of search-input events (each
arriving less than 300 ms after the previous one) produces exactly one
engine run, scheduled 300 ms after the last event and using the last
event's value. -/
theorem mec_debounce (e : Nat × Str) (es : List (Nat × Str))
    (hchain : List.Chain' (fun a b => a.1 < b.1 ∧ b.1 < a.1 + 300) (e :: es)) :
    debounceRuns (e :: es) =
      [(((e :: es).getLast (List.cons_ne_nil _ _)).1 + 300,
        ((e :: es).getLast (List.cons_ne_nil _ _)).2)] := by
  unfold debounceRuns
  rw [List.foldl_cons]
  have hstep : debounceStep debounceInit e = ⟨some (e.1 + 300), e.2, []⟩ := rfl
  rw [hstep]
  obtain ⟨t, v⟩ := e
  rw [debounce_fold_burst es t v [] hchain]
  rfl

/-- C7 witness: the spec's example burst — events at 0 ms, 100 ms and
150 ms with values `"a"`, `"ab"`, `"abc"` — produces exactly one run,
at 450 ms, with `"abc"`. -/
theorem mec_debounce_witness :
    debounceRuns [(0, "a".toList), (100, "ab".toList), (150, "abc".toList)] =
      [(450, "abc".toList)] :=
  (mec_debounce (0, "a".toList) [(100, "ab".toList), (150, "abc".toList)]
    (by norm_num [List.chain'_cons])).trans (by decide)

/-- C8 (amended): every re-run performs its side effects together and
in the source's order — render the result (or the empty state), update
the count indicator (format `Showing N of T tutorials` when `N ≠ T`,
else `Showing all T tutorials`), then sync the URL, then update the
clear-button visibility (visible iff some field is active).  The effect
tags are `0` render, `1` count, `2` URL sync, `3` clear button. -/
theorem mec_rerun_effects (rand : Int → Nat → Nat) (s : FilterState) (allT : List Tutorial) :
    (filterTutorialsTrace rand s allT).map effTag = [0, 1, 2, 3] ∧
      filterTutorialsTrace rand s allT =
        renderTrace allT.length (applyEngine rand s allT) ++
          [Effect.urlSync (toQuery s), Effect.clearVisible (anyActive s)] ∧
      (∀ N T : Nat, N ≠ T →
        countMsg N T = "Showing ".toList ++ natStr N ++ " of ".toList ++ natStr T
          ++ " tutorials".toList) ∧
      (∀ T : Nat, countMsg T T = "Showing all ".toList ++ natStr T ++ " tutorials".toList) ∧
      (anyActive s = true ↔
        (s.searchText ≠ [] ∨ s.yearFilter ≠ [] ∨ s.topicFilter ≠ [])) := by
  refine ⟨?_, rfl, fun N T h => by rw [countMsg, if_neg h], fun T => by rw [countMsg, if_pos rfl],
    by simp [anyActive, List.isEmpty_iff, or_assoc]⟩
  by_cases h : (applyEngine rand s allT).isEmpty <;>
    simp [filterTutorialsTrace, renderTrace, h, effTag]

/-- C8 witness: the count indicator for 1 of 2 items. -/
theorem mec_rerun_effects_witness :
    countMsg 1 2 = "Showing 1 of 2 tutorials".toList :=
  ((mec_rerun_effects (fun _ _ => 0) ⟨[], [], []⟩ []).2.2.1 1 2 (by decide)).trans (by decide)

/-- C8 (counterexample): the claim puts the clear-button update (tag 3)
before the URL sync (tag 2), i.e. demands the tag order
`[0, 1, 3, 2]`; the code performs `updateURL()` before
`updateClearButton()`, producing `[0, 1, 2, 3]` — shown here at a
concrete re-run. -/
theorem mec_rerun_effects_ce :
    (filterTutorialsTrace (fun _ _ => 0) ⟨"x".toList, [], []⟩ []).map effTag = [0, 1, 2, 3] ∧
      (filterTutorialsTrace (fun _ _ => 0) ⟨"x".toList, [], []⟩ []).map effTag ≠
        [0, 1, 3, 2] := by
  decide

/-- C9 (amended): a user input event arriving before the data load
completes triggers an ordinary run over the still-empty collection —
it renders the empty state, sets the count to `Showing all 0
tutorials`, syncs the URL from the event's filter state and updates
the clear button; it is not a no-op. -/
theorem mec_preload_event (rand : Int → Nat → Nat) (s : FilterState) :
    filterTutorialsTrace rand s [] =
      [Effect.renderEmpty, Effect.countText (countMsg 0 0),
        Effect.urlSync (toQuery s), Effect.clearVisible (anyActive s)] := rfl

/-- C9 (counterexample): a search value `"x"` present before the load
completes produces observable effects — the run's trace is non-empty
and in particular changes the URL to `?search=x` — contradicting the
claim that pre-load events have no observable effect. -/
theorem mec_preload_event_ce :
    filterTutorialsTrace (fun _ _ => 0) ⟨"x".toList, [], []⟩ [] ≠ [] ∧
      Effect.urlSync [("search".toList, "x".toList)] ∈
        filterTutorialsTrace (fun _ _ => 0) ⟨"x".toList, [], []⟩ [] := by
  decide
